import Mathlib

/-!
Verification of the sensor-fusion / alignment-guidance core of the Stars
pointing app, shallowly embedded from `src/sensor.js` and `src/main.js`.

Angles are modelled as rationals (JavaScript numbers on the inputs the
program handles are exact decimal arithmetic here).  The JavaScript `%`
operator is remainder with truncation toward zero (`jsRem`).  The
while-loop angle normalisation of `smoothAngle` and `updatePointerUI`
(`while (diff < -180) diff += 360; while (diff > 180) diff -= 360`) is
embedded as two well-founded recursive functions `wrapUp` and `wrapDown`
composed as `wrap180`.
-/

/-- JavaScript truncation toward zero, as used by the `%` operator. -/
def jsTrunc (q : ℚ) : ℤ := if 0 ≤ q then ⌊q⌋ else ⌈q⌉

/-- JavaScript remainder `a % b`: `a - b * trunc (a / b)`. -/
def jsRem (a b : ℚ) : ℚ := a - b * jsTrunc (a / b)

/-- First loop of the normalisation: `while (diff < -180) diff += 360`. -/
def wrapUp (x : ℚ) : ℚ :=
  if x < -180 then wrapUp (x + 360) else x
termination_by (⌈(-180 - x) / 360⌉).toNat
decreasing_by
  have hpos : (0 : ℚ) < (-180 - x) / 360 := by
    apply div_pos <;> linarith
  have hceil : 0 < ⌈(-180 - x) / 360⌉ := Int.ceil_pos.mpr hpos
  have hsub : (-180 - (x + 360)) / 360 = (-180 - x) / 360 - 1 := by ring
  rw [hsub, Int.ceil_sub_one]
  omega

/-- Second loop of the normalisation: `while (diff > 180) diff -= 360`. -/
def wrapDown (x : ℚ) : ℚ :=
  if 180 < x then wrapDown (x - 360) else x
termination_by (⌈(x - 180) / 360⌉).toNat
decreasing_by
  have hpos : (0 : ℚ) < (x - 180) / 360 := by
    apply div_pos <;> linarith
  have hceil : 0 < ⌈(x - 180) / 360⌉ := Int.ceil_pos.mpr hpos
  have hsub : (x - 360 - 180) / 360 = (x - 180) / 360 - 1 := by ring
  rw [hsub, Int.ceil_sub_one]
  omega

/-- The two loops in sequence: shortest-signed-path normalisation used by
`SensorManager.smoothAngle` and `updatePointerUI`. -/
def wrap180 (x : ℚ) : ℚ := wrapDown (wrapUp x)

/-! ## SensorManager (src/sensor.js) -/

/-- Mutable state of `SensorManager`.  `storedNorthOffset` and
`storedPitchOffset` model the two `localStorage` keys
(`stars_north_offset`, `stars_pitch_offset`) written through by the
calibration methods. -/
structure SensorState where
  heading : ℚ
  pitch : ℚ
  calibrationOffset : ℚ
  pitchOffset : ℚ
  alpha : ℚ
  beta : ℚ
  gamma : ℚ
  smoothing : ℚ
  storedNorthOffset : ℚ
  storedPitchOffset : ℚ
  deriving DecidableEq

/-- A `deviceorientation` event: the three angle fields are nullable
(`double?` in the DOM spec); `webkitCompassHeading` is absent off iOS. -/
structure OrientationEvent where
  alpha : Option ℚ
  beta : Option ℚ
  gamma : Option ℚ
  webkitCompassHeading : Option ℚ
  deriving DecidableEq

/-- The `SensorManager` constructor state: heading/pitch start at 0,
offsets are loaded from storage, smoothing factor is 0.85. -/
def initSensorState (storedNorth storedPitch : ℚ) : SensorState :=
  { heading := 0, pitch := 0,
    calibrationOffset := storedNorth, pitchOffset := storedPitch,
    alpha := 0, beta := 0, gamma := 0,
    smoothing := 0.85,
    storedNorthOffset := storedNorth, storedPitchOffset := storedPitch }

/-- Method `SensorManager.smoothAngle(current, target)`: shortest-path
difference wrapped by the two while loops, then a low-pass step and
normalisation to `[0, 360)` via the JavaScript `%`. -/
def smoothAngle (smoothing current target : ℚ) : ℚ :=
  jsRem (current + wrap180 (target - current) * (1 - smoothing) + 360) 360

/-- Line 120 of `src/sensor.js`: `let rawPitch = beta - 90;` -/
def rawPitch (beta : ℚ) : ℚ := beta - 90

/-- Method `SensorManager.handleOrientation(event)`.  Returns the state after
the event (the `onUpdate` callback receives the same state).  A null
angle field causes an early return with the state untouched.  The
`if (event.webkitCompassHeading)` truthiness test treats a 0 value as
absent. -/
def handleOrientation (s : SensorState) (e : OrientationEvent) : SensorState :=
  match e.alpha, e.beta, e.gamma with
  | some a, some b, some g =>
    let rawHeading0 : ℚ :=
      match e.webkitCompassHeading with
      | some h => if h = 0 then 360 - a else h
      | none => 360 - a
    let rawHeading := jsRem (rawHeading0 + 360) 360
    let calibratedHeading := jsRem (rawHeading + s.calibrationOffset + 360) 360
    let rp := rawPitch b + s.pitchOffset
    { s with
      heading := smoothAngle s.smoothing s.heading calibratedHeading,
      pitch := s.pitch * s.smoothing + rp * (1 - s.smoothing),
      alpha := a, beta := b, gamma := g }
  | _, _, _ => s

/-- Method `SensorManager.setCalibration()`: recover the raw heading by
undoing the old offset, set the new offset to its negation, and persist
it under `stars_north_offset`. -/
def setCalibration (s : SensorState) : SensorState :=
  let currentRaw := jsRem (s.heading - s.calibrationOffset + 360) 360
  { s with calibrationOffset := -currentRaw, storedNorthOffset := -currentRaw }

/-- Method `SensorManager.setPitchCalibration()`: `pitchOffset -= pitch`,
persisted under `stars_pitch_offset`. -/
def setPitchCalibration (s : SensorState) : SensorState :=
  { s with pitchOffset := s.pitchOffset - s.pitch,
           storedPitchOffset := s.pitchOffset - s.pitch }

/-- A whole stream of orientation events, processed in order. -/
def runEvents (s : SensorState) (es : List OrientationEvent) : SensorState :=
  es.foldl handleOrientation s

/-- Circular distance between two angles: absolute value of the
shortest signed path. -/
def circDist (a b : ℚ) : ℚ := |wrap180 (a - b)|

/-- Iterated smoothing toward a constant target. -/
def smoothIter (smoothing target : ℚ) : ℕ → ℚ → ℚ
  | 0, c => c
  | n + 1, c => smoothAngle smoothing (smoothIter smoothing target n c) target

/-! ## Pointer-mode app logic (src/main.js) -/

/-- A celestial body row from `getCelestialPositions`: the fields
`updatePointerUI` reads. -/
structure Target where
  name : String
  alt : ℚ
  az : ℚ
  deriving DecidableEq

/-- Text written to the `turn-msg` element, with the magnitude the
message carries (`formatDeg` rendering is display-only). -/
inductive TurnMsg
  | aligned
  | faceOK
  | turnRight (d : ℚ)
  | turnLeft (d : ℚ)
  deriving DecidableEq

/-- Text written to the `tilt-msg` element. -/
inductive TiltMsg
  | aligned
  | tiltOK
  | tiltUp (d : ℚ)
  | tiltDown (d : ℚ)
  deriving DecidableEq

/-- The module-level `appState` of `src/main.js` together with the DOM
state `updatePointerUI` writes (arrow/lock/warning visibility and the
two guidance messages).  `pointerVisible` models whether the pointer
screen is the active one (`showScreen('pointer')`). -/
structure AppState where
  targetBody : Option Target
  currentHeading : ℚ
  currentPitch : ℚ
  isLocked : Bool
  pointerVisible : Bool
  turnMsg : TurnMsg
  tiltMsg : TiltMsg
  arrowHidden : Bool
  lockShown : Bool
  warnShown : Bool
  deriving DecidableEq

/-- The alignment predicate of `updatePointerUI`:
`Math.abs(azDiff) < 6 && Math.abs(altDiff) < 6` with
`azDiff = wrap180(target.az - currentHeading)` and
`altDiff = target.alt - currentPitch`. -/
def alignedWith (t : Target) (heading pitch : ℚ) : Prop :=
  |wrap180 (t.az - heading)| < 6 ∧ |t.alt - pitch| < 6

instance (t : Target) (heading pitch : ℚ) : Decidable (alignedWith t heading pitch) := by
  unfold alignedWith
  infer_instance

/-- Function `updatePointerUI()`: returns the updated state and whether the
haptic pulse (`navigator.vibrate(100)`) fired on this call. -/
def updatePointerUI (s : AppState) : AppState × Bool :=
  match s.targetBody with
  | none => (s, false)
  | some target =>
    if ¬ s.pointerVisible then (s, false) else
    let azDiff := wrap180 (target.az - s.currentHeading)
    let altDiff := target.alt - s.currentPitch
    let warn := decide (target.alt < 0)
    if alignedWith target s.currentHeading s.currentPitch then
      ({ s with isLocked := true, arrowHidden := true, lockShown := true,
                turnMsg := .aligned, tiltMsg := .aligned,
                warnShown := warn },
       !s.isLocked)
    else
      ({ s with isLocked := false, arrowHidden := false, lockShown := false,
                turnMsg :=
                  if |azDiff| < 2 then .faceOK
                  else if 0 < azDiff then .turnRight azDiff
                  else .turnLeft |azDiff|,
                tiltMsg :=
                  if |altDiff| < 2 then .tiltOK
                  else if 0 < altDiff then .tiltUp altDiff
                  else .tiltDown |altDiff|,
                warnShown := warn },
       false)

/-- Function `startTracking(body)`: install the body as the current target, show
the pointer screen, and run the initial `updatePointerUI()`. -/
def startTracking (b : Target) (s : AppState) : AppState × Bool :=
  updatePointerUI { s with targetBody := some b, pointerVisible := true }


/-! ## Concrete states used by claim theorems -/

/-- The concrete pre-selection session state for the C4 counterexample:
already locked on a previous target, pointer screen visible, smoothed
state (120, 40). -/
def c4State : AppState :=
  { targetBody := some ⟨"Saturn", 80, 200⟩,
    currentHeading := 120, currentPitch := 40,
    isLocked := true, pointerVisible := true,
    turnMsg := .faceOK, tiltMsg := .tiltOK,
    arrowHidden := false, lockShown := false, warnShown := false }

/-- Concrete session state for the C7 witness: Jupiter selected, exact
alignment, not yet locked. -/
def c7State : AppState :=
  { targetBody := some ⟨"Jupiter", 40, 120⟩,
    currentHeading := 120, currentPitch := 40,
    isLocked := false, pointerVisible := true,
    turnMsg := .faceOK, tiltMsg := .tiltOK,
    arrowHidden := false, lockShown := false, warnShown := false }

/-- Smoothed state (heading 114, pitch 36) while tracking Jupiter at
(altitude 40, azimuth 120). -/
def c8State : AppState :=
  { targetBody := some ⟨"Jupiter", 40, 120⟩,
    currentHeading := 114, currentPitch := 36,
    isLocked := false, pointerVisible := true,
    turnMsg := .faceOK, tiltMsg := .tiltOK,
    arrowHidden := false, lockShown := false, warnShown := false }


/-! ## Properties of the wrap loops -/

theorem wrapUp_of_le (x : ℚ) (h : -180 ≤ x) : wrapUp x = x := by
  rw [wrapUp]
  simp [not_lt.mpr h]

theorem wrapUp_step (x : ℚ) (h : x < -180) : wrapUp x = wrapUp (x + 360) := by
  rw [wrapUp]
  simp [h]

theorem wrapDown_of_le (x : ℚ) (h : x ≤ 180) : wrapDown x = x := by
  rw [wrapDown]
  simp [not_lt.mpr h]

theorem wrapDown_step (x : ℚ) (h : 180 < x) : wrapDown x = wrapDown (x - 360) := by
  rw [wrapDown]
  simp [h]

theorem wrapUp_ge (x : ℚ) : -180 ≤ wrapUp x := by
  by_cases h : x < -180
  · rw [wrapUp_step x h]
    exact wrapUp_ge (x + 360)
  · rw [wrapUp_of_le x (not_lt.mp h)]
    exact not_lt.mp h
termination_by (⌈(-180 - x) / 360⌉).toNat
decreasing_by
  have hpos : (0 : ℚ) < (-180 - x) / 360 := by
    apply div_pos <;> linarith
  have hceil : 0 < ⌈(-180 - x) / 360⌉ := Int.ceil_pos.mpr hpos
  have hsub : (-180 - (x + 360)) / 360 = (-180 - x) / 360 - 1 := by ring
  rw [hsub, Int.ceil_sub_one]
  omega

theorem wrapUp_lt_of_lt (x : ℚ) (h : x < -180) : wrapUp x < 180 := by
  by_cases h2 : x + 360 < -180
  · rw [wrapUp_step x h]
    exact wrapUp_lt_of_lt (x + 360) h2
  · rw [wrapUp_step x h, wrapUp_of_le (x + 360) (not_lt.mp h2)]
    linarith
termination_by (⌈(-180 - x) / 360⌉).toNat
decreasing_by
  all_goals
    have hpos : (0 : ℚ) < (-180 - x) / 360 := by
      apply div_pos <;> linarith
    have hceil : 0 < ⌈(-180 - x) / 360⌉ := Int.ceil_pos.mpr hpos
    have hsub : (-180 - (x + 360)) / 360 = (-180 - x) / 360 - 1 := by ring
    rw [hsub, Int.ceil_sub_one]
    omega

theorem wrapDown_le (x : ℚ) : wrapDown x ≤ 180 := by
  by_cases h : 180 < x
  · rw [wrapDown_step x h]
    exact wrapDown_le (x - 360)
  · rw [wrapDown_of_le x (not_lt.mp h)]
    exact not_lt.mp h
termination_by (⌈(x - 180) / 360⌉).toNat
decreasing_by
  have hpos : (0 : ℚ) < (x - 180) / 360 := by
    apply div_pos <;> linarith
  have hceil : 0 < ⌈(x - 180) / 360⌉ := Int.ceil_pos.mpr hpos
  have hsub : (x - 360 - 180) / 360 = (x - 180) / 360 - 1 := by ring
  rw [hsub, Int.ceil_sub_one]
  omega

theorem wrapDown_ge (x : ℚ) (h : -180 ≤ x) : -180 ≤ wrapDown x := by
  by_cases h2 : 180 < x
  · rw [wrapDown_step x h2]
    exact wrapDown_ge (x - 360) (by linarith)
  · rw [wrapDown_of_le x (not_lt.mp h2)]
    exact h
termination_by (⌈(x - 180) / 360⌉).toNat
decreasing_by
  have hpos : (0 : ℚ) < (x - 180) / 360 := by
    apply div_pos <;> linarith
  have hceil : 0 < ⌈(x - 180) / 360⌉ := Int.ceil_pos.mpr hpos
  have hsub : (x - 360 - 180) / 360 = (x - 180) / 360 - 1 := by ring
  rw [hsub, Int.ceil_sub_one]
  omega

/-- The function `wrap180` always lands in the closed interval `[-180, 180]`. -/
theorem wrap180_mem (x : ℚ) : -180 ≤ wrap180 x ∧ wrap180 x ≤ 180 :=
  ⟨wrapDown_ge (wrapUp x) (wrapUp_ge x), wrapDown_le (wrapUp x)⟩

/-- The function `wrap180` fixes every point of `[-180, 180]`. -/
theorem wrap180_of_mem (x : ℚ) (h1 : -180 ≤ x) (h2 : x ≤ 180) : wrap180 x = x := by
  unfold wrap180
  rw [wrapUp_of_le x h1, wrapDown_of_le x h2]

theorem wrapUp_congr (x : ℚ) : ∃ k : ℤ, wrapUp x = x + 360 * k := by
  by_cases h : x < -180
  · obtain ⟨k, hk⟩ := wrapUp_congr (x + 360)
    exact ⟨k + 1, by rw [wrapUp_step x h, hk]; push_cast; ring⟩
  · exact ⟨0, by rw [wrapUp_of_le x (not_lt.mp h)]; push_cast; ring⟩
termination_by (⌈(-180 - x) / 360⌉).toNat
decreasing_by
  have hpos : (0 : ℚ) < (-180 - x) / 360 := by
    apply div_pos <;> linarith
  have hceil : 0 < ⌈(-180 - x) / 360⌉ := Int.ceil_pos.mpr hpos
  have hsub : (-180 - (x + 360)) / 360 = (-180 - x) / 360 - 1 := by ring
  rw [hsub, Int.ceil_sub_one]
  omega

theorem wrapDown_congr (x : ℚ) : ∃ k : ℤ, wrapDown x = x + 360 * k := by
  by_cases h : 180 < x
  · obtain ⟨k, hk⟩ := wrapDown_congr (x - 360)
    exact ⟨k - 1, by rw [wrapDown_step x h, hk]; push_cast; ring⟩
  · exact ⟨0, by rw [wrapDown_of_le x (not_lt.mp h)]; push_cast; ring⟩
termination_by (⌈(x - 180) / 360⌉).toNat
decreasing_by
  have hpos : (0 : ℚ) < (x - 180) / 360 := by
    apply div_pos <;> linarith
  have hceil : 0 < ⌈(x - 180) / 360⌉ := Int.ceil_pos.mpr hpos
  have hsub : (x - 360 - 180) / 360 = (x - 180) / 360 - 1 := by ring
  rw [hsub, Int.ceil_sub_one]
  omega

/-- The value `wrap180 x` differs from `x` by an integer multiple of 360. -/
theorem wrap180_congr (x : ℚ) : ∃ k : ℤ, wrap180 x = x + 360 * k := by
  obtain ⟨k, hk⟩ := wrapUp_congr x
  obtain ⟨m, hm⟩ := wrapDown_congr (wrapUp x)
  exact ⟨k + m, by unfold wrap180; rw [hm, hk]; push_cast; ring⟩

/-- Periodicity of `wrap180` with period 360, away from the boundary point `-180`. -/
theorem wrap180_periodic (x : ℚ) (hx : x ≠ -180) : wrap180 x = wrap180 (x + 360) := by
  by_cases h : x < -180
  · unfold wrap180
    rw [wrapUp_step x h]
  · have hge : -180 ≤ x := not_lt.mp h
    have hgt : -180 < x := lt_of_le_of_ne hge (Ne.symm hx)
    unfold wrap180
    rw [wrapUp_of_le x hge, wrapUp_of_le (x + 360) (by linarith),
        wrapDown_step (x + 360) (by linarith)]
    norm_num

/-- Two values congruent mod 360 whose representatives both lie in
`[-180, 180]` have the same absolute value; hence `wrap180` of anything
congruent to a bounded `x` has absolute value `|x|`. -/
theorem abs_wrap180_congr (x y : ℚ) (k : ℤ) (hy : y = x + 360 * k)
    (h1 : -180 ≤ x) (h2 : x ≤ 180) : |wrap180 y| = |x| := by
  obtain ⟨m, hm⟩ := wrap180_congr y
  obtain ⟨w1, w2⟩ := wrap180_mem y
  have hw : wrap180 y = x + 360 * ((k + m : ℤ) : ℚ) := by
    rw [hm, hy]; push_cast; ring
  have hlo : (-1 : ℚ) ≤ ((k + m : ℤ) : ℚ) := by nlinarith [hw, w1, w2, h1, h2]
  have hhi : ((k + m : ℤ) : ℚ) ≤ 1 := by nlinarith [hw, w1, w2, h1, h2]
  have hlo2 : (-1 : ℤ) ≤ k + m := by exact_mod_cast hlo
  have hhi2 : k + m ≤ (1 : ℤ) := by exact_mod_cast hhi
  interval_cases h : (k + m) <;> push_cast at hw
  · have hx : x = 180 := by linarith [hw, w1]
    rw [hw, hx]; norm_num
  · rw [hw]; ring_nf
  · have hx : x = -180 := by linarith [hw, w2]
    rw [hw, hx]; norm_num

/-- The value `jsRem a b` differs from `a` by an integer multiple of `b`. -/
theorem jsRem_congr (a b : ℚ) : ∃ k : ℤ, jsRem a b = a + b * k :=
  ⟨-jsTrunc (a / b), by unfold jsRem; push_cast; ring⟩

/-- For a nonnegative dividend and positive divisor, JavaScript remainder
agrees with mathematical mod: the result is in `[0, b)`. -/
theorem jsRem_nonneg_lt (a b : ℚ) (ha : 0 ≤ a) (hb : 0 < b) :
    0 ≤ jsRem a b ∧ jsRem a b < b := by
  have hq : 0 ≤ a / b := div_nonneg ha hb.le
  have htr : jsTrunc (a / b) = ⌊a / b⌋ := by unfold jsTrunc; simp [hq]
  have hfr : jsRem a b = b * Int.fract (a / b) := by
    unfold jsRem Int.fract
    rw [htr]
    field_simp
  constructor
  · rw [hfr]
    exact mul_nonneg hb.le (Int.fract_nonneg _)
  · rw [hfr]
    calc b * Int.fract (a / b) < b * 1 := by
          exact (mul_lt_mul_left hb).mpr (Int.fract_lt_one _)
      _ = b := mul_one b

/-! ## Claim C1: range and periodicity of wrap180 -/

/-- C1 (counterexample): the claim's half-open interval and unrestricted
periodicity both fail at the boundary.  With `h1 = 180`, `h2 = 0` the
difference is `-180`, which the loop `while (diff < -180)` leaves
untouched, so `wrap180 (h2 - h1) = -180 ∉ (-180, 180]`; and
`wrap180 (-180) = -180 ≠ 180 = wrap180 (-180 + 360)`. -/
theorem C1_counterexample :
    wrap180 ((0 : ℚ) - 180) = -180
    ∧ ¬ (-180 < wrap180 ((0 : ℚ) - 180))
    ∧ wrap180 (-180 : ℚ) ≠ wrap180 ((-180 : ℚ) + 360) := by
  have e1 : wrap180 ((0 : ℚ) - 180) = -180 := by
    rw [show ((0 : ℚ) - 180) = -180 by norm_num]
    exact wrap180_of_mem (-180) (by norm_num) (by norm_num)
  have e2 : wrap180 ((-180 : ℚ) + 360) = 180 := by
    rw [show ((-180 : ℚ) + 360) = 180 by norm_num]
    exact wrap180_of_mem 180 (by norm_num) (by norm_num)
  refine ⟨e1, ?_, ?_⟩
  · rw [e1]; norm_num
  · rw [show ((0 : ℚ) - 180) = -180 by norm_num] at e1
    rw [e1, e2]; norm_num

/-- C1 (amended): for headings `h1, h2 ∈ [0, 360)`, `wrap180 (h2 - h1)`
lies in the closed interval `[-180, 180]` (the value `-180` does occur,
exactly at difference `-180`), and `wrap180 x = wrap180 (x + 360)` for
every `x ≠ -180`. -/
theorem C1_wrap180_range_and_periodicity :
    (∀ h1 h2 : ℚ, 0 ≤ h1 → h1 < 360 → 0 ≤ h2 → h2 < 360 →
      -180 ≤ wrap180 (h2 - h1) ∧ wrap180 (h2 - h1) ≤ 180)
    ∧ (∀ x : ℚ, x ≠ -180 → wrap180 x = wrap180 (x + 360)) :=
  ⟨fun h1 h2 _ _ _ _ => wrap180_mem (h2 - h1),
   fun x hx => wrap180_periodic x hx⟩

/-- Witness for C1 at `h1 = 90`, `h2 = 100` and `x = 5`. -/
theorem C1_wrap180_range_and_periodicity_witness :
    (-180 ≤ wrap180 ((100 : ℚ) - 90) ∧ wrap180 ((100 : ℚ) - 90) ≤ 180)
    ∧ wrap180 (5 : ℚ) = wrap180 ((5 : ℚ) + 360) :=
  ⟨C1_wrap180_range_and_periodicity.1 90 100 (by norm_num) (by norm_num)
      (by norm_num) (by norm_num),
   C1_wrap180_range_and_periodicity.2 5 (by norm_num)⟩

/-! ## Claim C2: pitch convention -/

/-- C2 (counterexample): the code's own calibration of the beta axis
(`src/sensor.js` lines 85, 115: upright is `beta = 90`; tilting the
device back toward the sky lowers beta, e.g. to 45; tilting forward
raises it, e.g. to 135) combined with `rawPitch = beta - 90` means
tilting back *decreases* the computed pitch (to `-45`) and tilting
forward *increases* it — the opposite of the claimed directions. -/
theorem C2_counterexample :
    rawPitch 45 < rawPitch 90 ∧ rawPitch 90 < rawPitch 135
    ∧ rawPitch 45 = -45 := by
  refine ⟨?_, ?_, ?_⟩ <;> norm_num [rawPitch]

/-- C2 (amended): the Orientation Normalizer computes
`pitch = beta - 90`, so upright (`beta = 90`) maps to 0; since pitch is
strictly increasing in beta and tilting the device back toward the sky
*decreases* beta below 90, tilting back decreases pitch toward `-90`
and tilting forward/down increases it toward `+90`.  The smoothing
update consumes exactly this value (plus the pitch offset). -/
theorem C2_pitch_convention :
    (∀ b : ℚ, rawPitch b = b - 90)
    ∧ rawPitch 90 = 0
    ∧ (∀ b1 b2 : ℚ, b1 < b2 → rawPitch b1 < rawPitch b2)
    ∧ (∀ (s : SensorState) (a b g : ℚ),
        (handleOrientation s ⟨some a, some b, some g, none⟩).pitch
          = s.pitch * s.smoothing + (rawPitch b + s.pitchOffset) * (1 - s.smoothing)) := by
  refine ⟨fun b => rfl, by norm_num [rawPitch], ?_, fun s a b g => rfl⟩
  intro b1 b2 h
  simp only [rawPitch]
  linarith

/-- Witness for C2 at `b1 = 45 < b2 = 90`. -/
theorem C2_pitch_convention_witness :
    rawPitch 45 < rawPitch 90 ∧ rawPitch (45 : ℚ) = 45 - 90 :=
  ⟨C2_pitch_convention.2.2.1 45 90 (by norm_num),
   C2_pitch_convention.1 45⟩

/-! ## Claim C3: null samples are rejected -/

/-- C3: an orientation event with any null angle field is dropped by
the `if (alpha === null || beta === null || gamma === null) return;`
guard: the sensor state (smoothed heading and pitch included) is
returned exactly unchanged. -/
theorem C3_null_sample_rejected (s : SensorState) (e : OrientationEvent)
    (h : e.alpha = none ∨ e.beta = none ∨ e.gamma = none) :
    handleOrientation s e = s := by
  rcases e with ⟨ea, eb, eg, ew⟩
  cases ea <;> cases eb <;> cases eg <;> simp_all [handleOrientation]

/-- Witness for C3: a concrete event with `alpha = null`. -/
theorem C3_null_sample_rejected_witness :
    handleOrientation (initSensorState 0 0) ⟨none, some 5, some 7, none⟩
      = initSensorState 0 0 :=
  C3_null_sample_rejected (initSensorState 0 0) ⟨none, some 5, some 7, none⟩
    (Or.inl rfl)

/-! ## Claim C6: calibration round-trip -/

/-- C6: `setCalibration` recovers the raw heading
`raw = (heading - oldOffset + 360) % 360`, stores `newOffset = -raw`,
and recomputing the calibrated heading from the same raw value,
`(raw + newOffset + 360) % 360`, gives exactly 0. -/
theorem C6_calibration_roundtrip (s : SensorState)
    (h0 : 0 ≤ s.heading) (h1 : s.heading < 360) :
    (setCalibration s).calibrationOffset
        = -(jsRem (s.heading - s.calibrationOffset + 360) 360)
    ∧ jsRem (jsRem (s.heading - s.calibrationOffset + 360) 360
        + (setCalibration s).calibrationOffset + 360) 360 = 0 := by
  refine ⟨rfl, ?_⟩
  have hoff : (setCalibration s).calibrationOffset
      = -(jsRem (s.heading - s.calibrationOffset + 360) 360) := rfl
  rw [hoff, show jsRem (s.heading - s.calibrationOffset + 360) 360
      + -(jsRem (s.heading - s.calibrationOffset + 360) 360) + 360 = 360 by ring]
  norm_num [jsRem, jsTrunc]

/-- Witness for C6 on the freshly constructed sensor state. -/
theorem C6_calibration_roundtrip_witness :
    (setCalibration (initSensorState 20 0)).calibrationOffset
        = -(jsRem ((initSensorState 20 0).heading
            - (initSensorState 20 0).calibrationOffset + 360) 360)
    ∧ jsRem (jsRem ((initSensorState 20 0).heading
        - (initSensorState 20 0).calibrationOffset + 360) 360
        + (setCalibration (initSensorState 20 0)).calibrationOffset + 360) 360 = 0 :=
  C6_calibration_roundtrip (initSensorState 20 0)
    (by norm_num [initSensorState]) (by norm_num [initSensorState])

/-! ## Claim C10: frame conditions of the two calibrations -/

/-- C10: `setCalibration` mutates only the heading calibration offset
and its persisted key; the smoothed heading and pitch, the pitch offset,
its persisted key, the smoothing factor and the stored raw angles are
untouched.  Symmetrically, `setPitchCalibration` leaves the heading
offset, its persisted key and the smoothed heading unchanged. -/
theorem C10_calibration_frame (s : SensorState) :
    ((setCalibration s).heading = s.heading
      ∧ (setCalibration s).pitch = s.pitch
      ∧ (setCalibration s).pitchOffset = s.pitchOffset
      ∧ (setCalibration s).smoothing = s.smoothing
      ∧ (setCalibration s).storedPitchOffset = s.storedPitchOffset
      ∧ (setCalibration s).alpha = s.alpha
      ∧ (setCalibration s).beta = s.beta
      ∧ (setCalibration s).gamma = s.gamma)
    ∧ ((setPitchCalibration s).calibrationOffset = s.calibrationOffset
      ∧ (setPitchCalibration s).heading = s.heading
      ∧ (setPitchCalibration s).storedNorthOffset = s.storedNorthOffset
      ∧ (setPitchCalibration s).smoothing = s.smoothing) :=
  ⟨⟨rfl, rfl, rfl, rfl, rfl, rfl, rfl, rfl⟩, rfl, rfl, rfl, rfl⟩

/-! ## Claim C5: smoothed-state invariant -/

theorem handleOrientation_smoothing (s : SensorState) (e : OrientationEvent) :
    (handleOrientation s e).smoothing = s.smoothing := by
  rcases e with ⟨ea, eb, eg, ew⟩
  cases ea <;> cases eb <;> cases eg <;> rfl

theorem handleOrientation_pitchOffset (s : SensorState) (e : OrientationEvent) :
    (handleOrientation s e).pitchOffset = s.pitchOffset := by
  rcases e with ⟨ea, eb, eg, ew⟩
  cases ea <;> cases eb <;> cases eg <;> rfl

/-- Projection of the pitch update on an accepted sample. -/
theorem handleOrientation_pitch_some (s : SensorState) (a b g : ℚ) (w : Option ℚ) :
    (handleOrientation s ⟨some a, some b, some g, w⟩).pitch
      = s.pitch * s.smoothing + (rawPitch b + s.pitchOffset) * (1 - s.smoothing) := rfl

/-- One smoothing step keeps the heading in `[0, 360)` as long as the
previous heading was nonnegative and the responsiveness `1 - smoothing`
lies in `[0, 1]`. -/
theorem smoothAngle_mem (σ c t : ℚ) (hc : 0 ≤ c) (hσ0 : 0 ≤ σ) (hσ1 : σ ≤ 1) :
    0 ≤ smoothAngle σ c t ∧ smoothAngle σ c t < 360 := by
  unfold smoothAngle
  obtain ⟨w1, w2⟩ := wrap180_mem (t - c)
  apply jsRem_nonneg_lt _ _ ?_ (by norm_num)
  nlinarith [mul_nonneg (by linarith : (0:ℚ) ≤ wrap180 (t - c) + 180)
    (by linarith : (0:ℚ) ≤ 1 - σ)]

theorem handleOrientation_heading_mem (s : SensorState) (e : OrientationEvent)
    (hh0 : 0 ≤ s.heading) (hh1 : s.heading < 360)
    (hσ0 : 0 ≤ s.smoothing) (hσ1 : s.smoothing ≤ 1) :
    0 ≤ (handleOrientation s e).heading ∧ (handleOrientation s e).heading < 360 := by
  rcases e with ⟨ea, eb, eg, ew⟩
  cases ea with
  | none => cases eb <;> cases eg <;> exact ⟨hh0, hh1⟩
  | some a =>
    cases eb with
    | none => cases eg <;> exact ⟨hh0, hh1⟩
    | some b =>
      cases eg with
      | none => exact ⟨hh0, hh1⟩
      | some g => exact smoothAngle_mem s.smoothing s.heading _ hh0 hσ0 hσ1

/-- C5 (amended, heading half): along any stream of orientation events
the smoothed heading stays in `[0, 360)`, for any start state whose
heading is in range and whose smoothing factor is in `[0, 1]` (the
program's is the constant 0.85), and for every calibration offset. -/
theorem C5_heading_invariant (s : SensorState) (es : List OrientationEvent)
    (hh0 : 0 ≤ s.heading) (hh1 : s.heading < 360)
    (hσ0 : 0 ≤ s.smoothing) (hσ1 : s.smoothing ≤ 1) :
    0 ≤ (runEvents s es).heading ∧ (runEvents s es).heading < 360 := by
  induction es generalizing s with
  | nil => exact ⟨hh0, hh1⟩
  | cons e es ih =>
    have hstep := handleOrientation_heading_mem s e hh0 hh1 hσ0 hσ1
    have hsm := handleOrientation_smoothing s e
    exact ih (handleOrientation s e) hstep.1 hstep.2
      (hsm ▸ hσ0) (hsm ▸ hσ1)

/-- Witness for C5 from the constructor state over one event. -/
theorem C5_heading_invariant_witness :
    0 ≤ (runEvents (initSensorState 0 0) [⟨some 30, some 80, some 0, none⟩]).heading
    ∧ (runEvents (initSensorState 0 0) [⟨some 30, some 80, some 0, none⟩]).heading < 360 :=
  C5_heading_invariant (initSensorState 0 0) [⟨some 30, some 80, some 0, none⟩]
    (by norm_num [initSensorState]) (by norm_num [initSensorState])
    (by norm_num [initSensorState]) (by norm_num [initSensorState])

/-- C5 (counterexample): the pitch half of the claimed invariant fails —
the code never clamps pitch.  Three samples with `beta = -180` (a legal
front-back tilt value) drive the smoothed pitch from 0 to
`-104.18625 ∉ [-90, 90]`, with zero calibration offsets. -/
theorem C5_counterexample :
    (runEvents (initSensorState 0 0)
      [⟨some 0, some (-180), some 0, none⟩,
       ⟨some 0, some (-180), some 0, none⟩,
       ⟨some 0, some (-180), some 0, none⟩]).pitch < -90 := by
  show (handleOrientation (handleOrientation (handleOrientation
      (initSensorState 0 0) ⟨some 0, some (-180), some 0, none⟩)
      ⟨some 0, some (-180), some 0, none⟩)
      ⟨some 0, some (-180), some 0, none⟩).pitch < -90
  set s0 := initSensorState 0 0 with hs0
  set s1 := handleOrientation s0 ⟨some 0, some (-180), some 0, none⟩ with hs1
  set s2 := handleOrientation s1 ⟨some 0, some (-180), some 0, none⟩ with hs2
  have h1p : s1.pitch = -81/2 := by
    rw [hs1, handleOrientation_pitch_some]
    norm_num [hs0, initSensorState, rawPitch]
  have h1σ : s1.smoothing = 17/20 := by
    rw [hs1, handleOrientation_smoothing]
    norm_num [hs0, initSensorState]
  have h1o : s1.pitchOffset = 0 := by
    rw [hs1, handleOrientation_pitchOffset]
    norm_num [hs0, initSensorState]
  have h2p : s2.pitch = -2997/40 := by
    rw [hs2, handleOrientation_pitch_some, h1p, h1σ, h1o]
    norm_num [rawPitch]
  have h2σ : s2.smoothing = 17/20 := by
    rw [hs2, handleOrientation_smoothing, h1σ]
  have h2o : s2.pitchOffset = 0 := by
    rw [hs2, handleOrientation_pitchOffset, h1o]
  rw [handleOrientation_pitch_some, h2p, h2σ, h2o]
  norm_num [rawPitch]

/-! ## Evaluation lemmas for updatePointerUI -/

theorem updatePointerUI_pulse (s : AppState) (t : Target)
    (ht : s.targetBody = some t) (hv : s.pointerVisible = true) :
    (updatePointerUI s).2
      = (decide (alignedWith t s.currentHeading s.currentPitch) && !s.isLocked) := by
  unfold updatePointerUI
  rw [ht]
  simp only [hv, not_true_eq_false, if_false]
  by_cases h : alignedWith t s.currentHeading s.currentPitch
  · rw [if_pos h]
    simp [h]
  · rw [if_neg h]
    simp [h]

theorem updatePointerUI_isLocked (s : AppState) (t : Target)
    (ht : s.targetBody = some t) (hv : s.pointerVisible = true) :
    (updatePointerUI s).1.isLocked
      = decide (alignedWith t s.currentHeading s.currentPitch) := by
  unfold updatePointerUI
  rw [ht]
  simp only [hv, not_true_eq_false, if_false]
  by_cases h : alignedWith t s.currentHeading s.currentPitch
  · rw [if_pos h]
    simp [h]
  · rw [if_neg h]
    simp [h]

/-- The function `updatePointerUI` never changes the target, the visible screen, or
the smoothed orientation values it reads. -/
theorem updatePointerUI_frame (s : AppState) :
    (updatePointerUI s).1.targetBody = s.targetBody
    ∧ (updatePointerUI s).1.pointerVisible = s.pointerVisible
    ∧ (updatePointerUI s).1.currentHeading = s.currentHeading
    ∧ (updatePointerUI s).1.currentPitch = s.currentPitch := by
  unfold updatePointerUI
  cases ht : s.targetBody with
  | none => exact ⟨ht, rfl, rfl, rfl⟩
  | some t =>
    by_cases hv : s.pointerVisible
    · simp only [hv, not_true_eq_false, if_false]
      by_cases h : alignedWith t s.currentHeading s.currentPitch
      · rw [if_pos h]
        exact ⟨ht ▸ rfl, rfl, rfl, rfl⟩
      · rw [if_neg h]
        exact ⟨ht ▸ rfl, rfl, rfl, rfl⟩
    · simp only [Bool.not_eq_true] at hv
      simp [hv, ht]

/-! ## Claim C4: selecting a target and the lock flag -/

/-- C4 (counterexample): `startTracking` does *not* reset the lock
flag.  Selecting Jupiter (alt 40, az 120) while the session is already
locked and the smoothed state (120, 40) is aligned with the new target
leaves `isLocked = true` immediately after selection, and the initial
evaluation fires no `justLocked` pulse. -/
theorem C4_counterexample :
    (startTracking ⟨"Jupiter", 40, 120⟩ c4State).1.isLocked = true
    ∧ (startTracking ⟨"Jupiter", 40, 120⟩ c4State).2 = false := by
  have haligned : alignedWith ⟨"Jupiter", 40, 120⟩ 120 40 := by
    constructor
    · rw [show ((⟨"Jupiter", 40, 120⟩ : Target).az - 120) = 0 by norm_num,
        wrap180_of_mem 0 (by norm_num) (by norm_num)]
      norm_num
    · norm_num
  unfold startTracking
  constructor
  · rw [updatePointerUI_isLocked _ ⟨"Jupiter", 40, 120⟩ rfl rfl]
    simpa [c4State] using haligned
  · rw [updatePointerUI_pulse _ ⟨"Jupiter", 40, 120⟩ rfl rfl]
    simp [c4State]

/-- C4 (amended): `startTracking` installs the new target and
immediately re-evaluates; instead of forcing the lock flag to `false`,
afterwards `isLocked` holds exactly when the current smoothed state is
already aligned with the new target, and the selection-time evaluation
fires `justLocked` exactly when that alignment holds and the flag was
`false` before — so the first aligned evaluation against the new target
fires `justLocked` only if the session was not already locked. -/
theorem C4_startTracking_lock (b : Target) (s : AppState) :
    ((startTracking b s).1.isLocked = true
      ↔ alignedWith b s.currentHeading s.currentPitch)
    ∧ ((startTracking b s).2 = true
      ↔ (alignedWith b s.currentHeading s.currentPitch ∧ s.isLocked = false)) := by
  unfold startTracking
  constructor
  · rw [updatePointerUI_isLocked _ b rfl rfl]
    simp
  · rw [updatePointerUI_pulse _ b rfl rfl]
    by_cases h : alignedWith b s.currentHeading s.currentPitch <;> simp [h]

/-! ## Claim C7: lock-edge one-shot behaviour -/

/-- C7: with a target selected and the pointer screen visible, the
haptic pulse (`justLocked`) fires exactly when the evaluation is
aligned and the previous lock state was not locked; staying aligned
does not re-fire on the next evaluation; leaving alignment clears the
lock state, after which any re-entry into alignment fires again. -/
theorem C7_lock_edge (s : AppState) (t : Target)
    (ht : s.targetBody = some t) (hv : s.pointerVisible = true) :
    ((updatePointerUI s).2 = true
      ↔ (alignedWith t s.currentHeading s.currentPitch ∧ s.isLocked = false))
    ∧ (alignedWith t s.currentHeading s.currentPitch →
        (updatePointerUI (updatePointerUI s).1).2 = false)
    ∧ (¬ alignedWith t s.currentHeading s.currentPitch →
        (updatePointerUI s).1.isLocked = false
        ∧ ∀ h' p' : ℚ, alignedWith t h' p' →
          (updatePointerUI
            { (updatePointerUI s).1 with currentHeading := h', currentPitch := p' }).2
            = true) := by
  obtain ⟨f1, f2, f3, f4⟩ := updatePointerUI_frame s
  refine ⟨?_, ?_, ?_⟩
  · rw [updatePointerUI_pulse s t ht hv]
    by_cases h : alignedWith t s.currentHeading s.currentPitch <;> simp [h]
  · intro h
    rw [updatePointerUI_pulse (updatePointerUI s).1 t (f1.trans ht) (f2.trans hv),
        updatePointerUI_isLocked s t ht hv]
    simp [h]
  · intro h
    have hlock : (updatePointerUI s).1.isLocked = false := by
      rw [updatePointerUI_isLocked s t ht hv]
      simp [h]
    refine ⟨hlock, fun h' p' hal => ?_⟩
    rw [updatePointerUI_pulse _ t (by simpa using f1.trans ht) (by simpa using f2.trans hv)]
    simp only [hlock]
    simpa using hal

/-- Witness for C7 on `c7State`. -/
theorem C7_lock_edge_witness :
    (updatePointerUI c7State).2 = true
      ↔ (alignedWith ⟨"Jupiter", 40, 120⟩ c7State.currentHeading c7State.currentPitch
          ∧ c7State.isLocked = false) :=
  (C7_lock_edge c7State ⟨"Jupiter", 40, 120⟩ rfl rfl).1

/-! ## Claim C8: end-to-end guidance scenario -/

/-- C8: for the target (alt 40, az 120) and smoothed state (114, 36),
the azimuth delta is exactly 6 — not strictly inside the 6° tolerance,
so the state is not aligned — the altitude delta is 4, and the guidance
selected is "turn right" carrying 6 and "tilt up" carrying 4. -/
theorem C8_end_to_end :
    wrap180 ((⟨"Jupiter", 40, 120⟩ : Target).az - c8State.currentHeading) = 6
    ∧ ¬ alignedWith ⟨"Jupiter", 40, 120⟩ c8State.currentHeading c8State.currentPitch
    ∧ (⟨"Jupiter", 40, 120⟩ : Target).alt - c8State.currentPitch = 4
    ∧ (updatePointerUI c8State).1.turnMsg = TurnMsg.turnRight 6
    ∧ (updatePointerUI c8State).1.tiltMsg = TiltMsg.tiltUp 4
    ∧ (updatePointerUI c8State).1.isLocked = false := by
  have h6 : wrap180 ((⟨"Jupiter", 40, 120⟩ : Target).az - c8State.currentHeading) = 6 := by
    rw [show ((⟨"Jupiter", 40, 120⟩ : Target).az - c8State.currentHeading) = 6 by
      norm_num [c8State]]
    exact wrap180_of_mem 6 (by norm_num) (by norm_num)
  have hnal : ¬ alignedWith ⟨"Jupiter", 40, 120⟩ c8State.currentHeading c8State.currentPitch := by
    unfold alignedWith
    rw [h6]
    norm_num
  refine ⟨h6, hnal, by norm_num [c8State], ?_, ?_, ?_⟩
  · unfold updatePointerUI
    rw [show c8State.targetBody = some ⟨"Jupiter", 40, 120⟩ from rfl]
    simp only [show c8State.pointerVisible = true from rfl, not_true_eq_false, if_false]
    rw [if_neg hnal]
    simp only [h6]
    norm_num
  · unfold updatePointerUI
    rw [show c8State.targetBody = some ⟨"Jupiter", 40, 120⟩ from rfl]
    simp only [show c8State.pointerVisible = true from rfl, not_true_eq_false, if_false]
    rw [if_neg hnal]
    norm_num [c8State]
  · unfold updatePointerUI
    rw [show c8State.targetBody = some ⟨"Jupiter", 40, 120⟩ from rfl]
    simp only [show c8State.pointerVisible = true from rfl, not_true_eq_false, if_false]
    rw [if_neg hnal]

/-! ## Claim C9: smoothing convergence -/

/-- One smoothing step scales the circular distance to the target by
exactly the smoothing factor. -/
theorem smoothAngle_circDist (σ c t : ℚ) (h0 : 0 ≤ σ) (h1 : σ ≤ 1) :
    circDist (smoothAngle σ c t) t = σ * circDist c t := by
  obtain ⟨k, hk⟩ := wrap180_congr (t - c)
  obtain ⟨d1, d2⟩ := wrap180_mem (t - c)
  set d := wrap180 (t - c) with hd
  obtain ⟨m, hm⟩ := jsRem_congr (c + d * (1 - σ) + 360) 360
  have hct : c - t = -d + 360 * ((k : ℤ) : ℚ) := by
    linarith [hk]
  have hcd : |wrap180 (c - t)| = |d| := by
    rw [abs_wrap180_congr (-d) (c - t) k hct (by linarith) (by linarith)]
    exact abs_neg d
  have hnew : smoothAngle σ c t - t = -(σ * d) + 360 * ((k + 1 + m : ℤ) : ℚ) := by
    unfold smoothAngle
    rw [hm]
    push_cast
    nlinarith [hk]
  have hb1 : -180 ≤ -(σ * d) := by nlinarith
  have hb2 : -(σ * d) ≤ 180 := by nlinarith
  unfold circDist
  rw [abs_wrap180_congr (-(σ * d)) (smoothAngle σ c t - t) (k + 1 + m) hnew hb1 hb2,
      abs_neg, abs_mul, abs_of_nonneg h0, hcd]

theorem circDist_nonneg (a b : ℚ) : 0 ≤ circDist a b := abs_nonneg _

theorem smoothIter_dist (σ t c : ℚ) (h0 : 0 ≤ σ) (h1 : σ ≤ 1) (n : ℕ) :
    circDist (smoothIter σ t n c) t = σ ^ n * circDist c t := by
  induction n with
  | zero => simp [smoothIter]
  | succ n ih =>
    rw [smoothIter, smoothAngle_circDist σ _ t h0 h1, ih, pow_succ]
    ring

/-- C9: with smoothing factor in (0,1), each smoothing step multiplies
the circular distance to a constant target by the smoothing factor, the
distance after `n` steps is the initial distance times the factor to the
`n`-th power (hence non-increasing at every step), and it falls below
any positive bound eventually. -/
theorem C9_smoothing_convergence (σ c t : ℚ) (h0 : 0 < σ) (h1 : σ < 1) :
    (circDist (smoothAngle σ c t) t = σ * circDist c t)
    ∧ (∀ n : ℕ, circDist (smoothIter σ t n c) t = σ ^ n * circDist c t)
    ∧ (∀ n : ℕ, circDist (smoothIter σ t (n + 1) c) t
        ≤ circDist (smoothIter σ t n c) t)
    ∧ (∀ ε : ℚ, 0 < ε → ∃ N : ℕ, ∀ n ≥ N, circDist (smoothIter σ t n c) t < ε) := by
  have hdist := smoothIter_dist σ t c h0.le h1.le
  refine ⟨smoothAngle_circDist σ c t h0.le h1.le, hdist, ?_, ?_⟩
  · intro n
    rw [hdist, hdist, pow_succ]
    nlinarith [mul_nonneg (mul_nonneg (pow_nonneg h0.le n)
      (by linarith : (0:ℚ) ≤ 1 - σ)) (circDist_nonneg c t)]
  · intro ε hε
    set D := circDist c t with hD
    have hD0 : 0 ≤ D := circDist_nonneg c t
    obtain ⟨N, hN⟩ := exists_pow_lt_of_lt_one (div_pos hε (by linarith : (0:ℚ) < D + 1)) h1
    refine ⟨N, fun n hn => ?_⟩
    rw [hdist n]
    have hpow : σ ^ n ≤ σ ^ N := pow_le_pow_of_le_one h0.le h1.le hn
    calc σ ^ n * D ≤ σ ^ N * D := by nlinarith
      _ ≤ (ε / (D + 1)) * D := by nlinarith [hN]
      _ < ε := by
          rw [div_mul_eq_mul_div, div_lt_iff₀ (by linarith : (0:ℚ) < D + 1)]
          nlinarith

/-- Witness for C9 at smoothing factor 1/2, current 0, target 90. -/
theorem C9_smoothing_convergence_witness :
    circDist (smoothAngle (1/2) 0 90) 90 = (1/2) * circDist 0 90 :=
  (C9_smoothing_convergence (1/2) 0 90 (by norm_num) (by norm_num)).1
